import Mathlib

/-!
# Verification of the rxfs static file server (src/util/rxfs.js)

A shallow embedding of the request-to-filesystem resolution pipeline,
request dispatcher, directory renderer, configuration validator, byte-size
formatter and request-id counter of `src/util/rxfs.js`, together with
theorems settling the specification claims.

JavaScript strings are modelled as `List Char` (`Str`).  The filesystem is
modelled as a record of functions (`Fs`): `statSync` and `readdirSync`
return `Except JsError _` (a JS exception is `Except.error`), and reading
a file's content returns `Except JsError Str`.  `fs.existsSync` is
modelled on top of `stat` the way Node implements it: any error makes it
return `false`, it never throws.

All definitions are executable; every request handler returns both its
result and the ordered trace of filesystem operations it performed, so
that claims about "no filesystem access happens before X" can be stated.
-/

/-- JavaScript strings, modelled as lists of characters. -/
abbrev Str := List Char

/-- Shorthand turning a Lean string literal into the model's string type. -/
def str (s : String) : Str := s.data

/-- The state machine behind the regex replacement `replace(/\/{2,}/g, '/')`:
the boolean records whether the previous character was a slash, so that every
maximal run of slashes is emitted as a single slash. -/
def collapseAux : Bool → Str → Str
  | _, [] => []
  | prevSlash, c :: rest =>
    if c = '/' then
      if prevSlash then collapseAux true rest
      else '/' :: collapseAux true rest
    else c :: collapseAux false rest

/-- `s.replace(/\/{2,}/g, '/')` from `R`'s constructor and the `Config`
base-url normalisation: collapse every run of two or more slashes to one. -/
def collapseSlashes (s : Str) : Str := collapseAux false s

/-- `s.replace(/^\//g, '')`: remove a single leading slash if present
(the anchored regex can only match once, at position 0). -/
def stripLeadingSlash : Str → Str
  | '/' :: rest => rest
  | l => l

/-- `s.replace(/\/$/g, '')`: remove a single trailing slash if present. -/
def stripTrailingSlash (l : Str) : Str :=
  if l.getLast? = some '/' then l.dropLast else l

/-- `hay.replace(needle, '')` with a plain-string pattern: JavaScript
removes the first (leftmost) occurrence of `needle`; an empty `needle`
matches at position 0 and removes nothing; if there is no occurrence the
string is unchanged. -/
def removeFirst (needle : Str) : Str → Str
  | [] => []
  | c :: rest =>
    if needle.isPrefixOf (c :: rest) then (c :: rest).drop needle.length
    else c :: removeFirst needle rest

/-- Value of a hexadecimal digit, case-insensitive (as accepted by
`decodeURIComponent` escape sequences). -/
def hexVal (c : Char) : Option Nat :=
  if '0' ≤ c ∧ c ≤ '9' then some (c.toNat - '0'.toNat)
  else if 'a' ≤ c ∧ c ≤ 'f' then some (c.toNat - 'a'.toNat + 10)
  else if 'A' ≤ c ∧ c ≤ 'F' then some (c.toNat - 'A'.toNat + 10)
  else none

/-- A `%HH` escape's byte value. -/
def hexByte (h1 h2 : Char) : Option Nat := do
  let a ← hexVal h1
  let b ← hexVal h2
  pure (a * 16 + b)

/-- Core of `decodeURIComponent` (a JS runtime builtin used by `R`'s
constructor).  Arguments: `need` = number of UTF-8 continuation bytes still
expected, `acc` = code point accumulated so far, `minV` = smallest code
point the current multi-byte sequence is allowed to produce (overlong
check).  Characters other than `%` pass through unchanged; `%HH` escapes
are decoded as UTF-8 byte sequences; any malformed escape or invalid byte
sequence yields `none` (the JS `URIError`). -/
def pdAux : Nat → Nat → Nat → Str → Option Str
  | 0, _, _, [] => some []
  | _ + 1, _, _, [] => none
  | 0, _, _, '%' :: h1 :: h2 :: rest =>
    match hexByte h1 h2 with
    | none => none
    | some b =>
      if b < 0x80 then
        (pdAux 0 0 0 rest).map (Char.ofNat b :: ·)
      else if 0xC2 ≤ b ∧ b < 0xE0 then
        pdAux 1 (b - 0xC0) 0x80 rest
      else if 0xE0 ≤ b ∧ b < 0xF0 then
        pdAux 2 (b - 0xE0) 0x800 rest
      else if 0xF0 ≤ b ∧ b < 0xF5 then
        pdAux 3 (b - 0xF0) 0x10000 rest
      else none
  | 0, _, _, '%' :: _ => none
  | 0, acc, minV, c :: rest =>
    if c = '%' then none
    else (pdAux 0 acc minV rest).map (c :: ·)
  | need + 1, acc, minV, '%' :: h1 :: h2 :: rest =>
    match hexByte h1 h2 with
    | none => none
    | some b =>
      if 0x80 ≤ b ∧ b < 0xC0 then
        let acc' := acc * 64 + (b - 0x80)
        if need = 0 then
          if minV ≤ acc' ∧ acc' < 0x110000 ∧ ¬(0xD800 ≤ acc' ∧ acc' < 0xE000) then
            (pdAux 0 0 0 rest).map (Char.ofNat acc' :: ·)
          else none
        else pdAux need acc' minV rest
      else none
  | _ + 1, _, _, _ :: _ => none

/-- `decodeURIComponent(s)`: `some` is a successful decode, `none` is a
thrown `URIError`. -/
def percentDecode (s : Str) : Option Str := pdAux 0 0 0 s

/-- `try { url = decodeURIComponent(url) } catch {}` from `R`'s
constructor: on decode failure the raw URL is used unchanged. -/
def jsDecodeOr (url : Str) : Str :=
  match percentDecode url with
  | some d => d
  | none => url

example : percentDecode (str "/%2e%2e/etc") = some (str "/../etc") := by decide
example : jsDecodeOr (str "/a%zz") = str "/a%zz" := by decide
example : collapseSlashes (str "a///b//c") = str "a/b/c" := by decide
example : stripTrailingSlash (stripLeadingSlash (str "/a/b/")) = str "a/b" := by decide
example : removeFirst (str "blog") (str "/blog/x") = str "//x" := by decide
example : removeFirst (str "") (str "/x") = str "/x" := by decide

/-! ## Filesystem model -/

/-- What a successful `stat` classifies an item as: a regular file, a
directory, or anything else (socket, device, broken symlink, ...). -/
inductive FileKind | file | dir | other
deriving DecidableEq, Repr

/-- A thrown Node.js filesystem error: `code` (e.g. `"ENOENT"`) and
`message`, the two fields `handle` inspects. -/
structure JsError where
  code : Str
  message : Str
deriving DecidableEq, Repr

/-- The result of a successful `fs.statSync`: the fields the server
reads (`isFile`/`isDirectory` classification, `size`, `ctime` already
rendered by `toISOString`). -/
structure Stats where
  kind : FileKind
  size : Nat
  ctime : Str
deriving DecidableEq, Repr

/-- One entry of `fs.readdirSync(dir, { withFileTypes: true })`. -/
structure Dirent where
  name : Str
  kind : FileKind
deriving DecidableEq, Repr

/-- The ambient filesystem: `stat`, `readdir` and whole-file `read` may
each fail with a JS error (`Except.error` = thrown exception). -/
structure Fs where
  stat : Str → Except JsError Stats
  readdir : Str → Except JsError (List Dirent)
  read : Str → Except JsError Str

/-- `fs.existsSync(p)`: Node returns `true` iff the path can be stat-ed;
every error is swallowed and reported as `false` — it never throws. -/
def Fs.existsSync (fs : Fs) (p : Str) : Bool :=
  match fs.stat p with
  | .ok _ => true
  | .error _ => false

/-- One filesystem operation, recorded in the order the server performs
them (used to settle claims about which accesses happen before a
response). -/
inductive FsOp
  | existsOp (p : Str)
  | statOp (p : Str)
  | readdirOp (p : Str)
  | readOp (p : Str)
deriving DecidableEq, Repr

/-! ## Validated configuration (the fields the request path consumes) -/

/-- The validated `Config` object as consumed by `R`, `handle` and
`dirview`: `root` is the resolved root path, `baseurl` is normalised (no
leading/trailing slash, slash runs collapsed), `port` is in `[1, 65535]`,
`headers` and `mimes` are string-to-string maps. -/
structure Config where
  root : Str
  port : Nat
  baseurl : Str
  autoindex : Bool
  servedir : Bool
  headers : List (Str × Str)
  mimes : List (Str × Str)
deriving DecidableEq, Repr

/-! ## Path resolver (`R`'s constructor, src/util/rxfs.js lines 340-360) -/

/-- The relative path computed by `R`'s constructor:
`url` is percent-decoded (falling back to the raw URL on a decode error),
the first occurrence of the configured base URL is removed, slash runs
are collapsed, and one leading and one trailing slash are stripped. -/
def relOf (cfg : Config) (url : Str) : Str :=
  stripTrailingSlash (stripLeadingSlash (collapseSlashes
    (removeFirst cfg.baseurl (jsDecodeOr url))))

/-- The absolute path computed by `R`'s constructor:
`rel ? root + '/' + rel : root`, followed by the double-leading-slash fix
`if (abs.startsWith('//')) abs = abs.slice(1)` (the edge case of serving
`/`). -/
def joinAbs (root rel : Str) : Str :=
  let a := if rel = [] then root else root ++ '/' :: rel
  if (str "//").isPrefixOf a then a.drop 1 else a

/-- The pre-substitution resolution `(rel, abs)` of a request URL. -/
def resolvePre (cfg : Config) (url : Str) : Str × Str :=
  let rel := relOf cfg url
  (rel, joinAbs cfg.root rel)

/-- `R`'s constructor in full: pre-substitution resolution followed by
the autoindex substitution
`if (config.autoindex && fs.existsSync(abs + '/index.html'))`.
Returns the `(rel, abs)` pair together with the trace of filesystem
operations performed (the `existsSync` probe happens only when
`autoindex` is set, because `&&` short-circuits). -/
def mkR (cfg : Config) (fs : Fs) (url : Str) : (Str × Str) × List FsOp :=
  let rel := relOf cfg url
  let abs := joinAbs cfg.root rel
  if cfg.autoindex then
    let idx := abs ++ str "/index.html"
    if fs.existsSync idx then
      (((if rel = [] then str "index.html" else rel ++ str "/index.html"),
        abs ++ str "/index.html"), [.existsOp idx])
    else ((rel, abs), [.existsOp idx])
  else ((rel, abs), [])

/-! ## MIME table (src/util/rxfs.js lines 140-248) -/

/-- Association-list lookup for the string-keyed maps (`config.mimes`,
the built-in `mimes` table, header maps); own-property lookup on a JS
object literal. -/
def alookup (m : List (Str × Str)) (k : Str) : Option Str :=
  match m with
  | [] => none
  | p :: rest => if p.1 = k then some p.2 else alookup rest k

/-- Whether a key is present in a string map. -/
def hasKey (m : List (Str × Str)) (k : Str) : Bool :=
  (alookup m k).isSome

/-- Insert-or-replace, the effect of `obj[key] = value` on a JS object:
an existing key keeps its position, a new key is appended. -/
def upsert (m : List (Str × Str)) (k v : Str) : List (Str × Str) :=
  match m with
  | [] => [(k, v)]
  | p :: rest => if p.1 = k then (k, v) :: rest else p :: upsert rest k v

/-- The built-in extension-to-content-type table, verbatim from the
`const mimes` object literal (nginx 1.14.0 mime.types). -/
def mimesBase : List (Str × Str) := [
  (str "3gp", str "video/3gpp"),
  (str "3gpp", str "video/3gpp"),
  (str "7z", str "application/x-7z-compressed"),
  (str "ai", str "application/postscript"),
  (str "asf", str "video/x-ms-asf"),
  (str "asx", str "video/x-ms-asf"),
  (str "atom", str "application/atom+xml"),
  (str "avi", str "video/x-msvideo"),
  (str "bin", str "application/octet-stream"),
  (str "bmp", str "image/x-ms-bmp"),
  (str "cco", str "application/x-cocoa"),
  (str "crt", str "application/x-x509-ca-cert"),
  (str "css", str "text/css"),
  (str "deb", str "application/octet-stream"),
  (str "der", str "application/x-x509-ca-cert"),
  (str "dll", str "application/octet-stream"),
  (str "dmg", str "application/octet-stream"),
  (str "doc", str "application/msword"),
  (str "docx", str "application/vnd.openxmlformats-officedocument.wordprocessingml.document"),
  (str "ear", str "application/java-archive"),
  (str "eot", str "application/vnd.ms-fontobject"),
  (str "eps", str "application/postscript"),
  (str "exe", str "application/octet-stream"),
  (str "flv", str "video/x-flv"),
  (str "gif", str "image/gif"),
  (str "hqx", str "application/mac-binhex40"),
  (str "htc", str "text/x-component"),
  (str "htm", str "text/html"),
  (str "html", str "text/html"),
  (str "ico", str "image/x-icon"),
  (str "img", str "application/octet-stream"),
  (str "iso", str "application/octet-stream"),
  (str "jad", str "text/vnd.sun.j2me.app-descriptor"),
  (str "jar", str "application/java-archive"),
  (str "jardiff", str "application/x-java-archive-diff"),
  (str "jng", str "image/x-jng"),
  (str "jnlp", str "application/x-java-jnlp-file"),
  (str "jpeg", str "image/jpeg"),
  (str "jpg", str "image/jpeg"),
  (str "js", str "application/javascript"),
  (str "json", str "application/json"),
  (str "kar", str "audio/midi"),
  (str "kml", str "application/vnd.google-earth.kml+xml"),
  (str "kmz", str "application/vnd.google-earth.kmz"),
  (str "m3u8", str "application/vnd.apple.mpegurl"),
  (str "m4a", str "audio/x-m4a"),
  (str "m4v", str "video/x-m4v"),
  (str "mid", str "audio/midi"),
  (str "midi", str "audio/midi"),
  (str "mml", str "text/mathml"),
  (str "mng", str "video/x-mng"),
  (str "mov", str "video/quicktime"),
  (str "mp3", str "audio/mpeg"),
  (str "mp4", str "video/mp4"),
  (str "mpeg", str "video/mpeg"),
  (str "mpg", str "video/mpeg"),
  (str "msi", str "application/octet-stream"),
  (str "msm", str "application/octet-stream"),
  (str "msp", str "application/octet-stream"),
  (str "ogg", str "audio/ogg"),
  (str "pdb", str "application/x-pilot"),
  (str "pdf", str "application/pdf"),
  (str "pem", str "application/x-x509-ca-cert"),
  (str "pl", str "application/x-perl"),
  (str "pm", str "application/x-perl"),
  (str "png", str "image/png"),
  (str "ppt", str "application/vnd.ms-powerpoint"),
  (str "pptx", str "application/vnd.openxmlformats-officedocument.presentationml.presentation"),
  (str "prc", str "application/x-pilot"),
  (str "ps", str "application/postscript"),
  (str "ra", str "audio/x-realaudio"),
  (str "rar", str "application/x-rar-compressed"),
  (str "rpm", str "application/x-redhat-package-manager"),
  (str "rss", str "application/rss+xml"),
  (str "rtf", str "application/rtf"),
  (str "run", str "application/x-makeself"),
  (str "sea", str "application/x-sea"),
  (str "shtml", str "text/html"),
  (str "sit", str "application/x-stuffit"),
  (str "svg", str "image/svg+xml"),
  (str "svgz", str "image/svg+xml"),
  (str "swf", str "application/x-shockwave-flash"),
  (str "tcl", str "application/x-tcl"),
  (str "tif", str "image/tiff"),
  (str "tiff", str "image/tiff"),
  (str "tk", str "application/x-tcl"),
  (str "ts", str "video/mp2t"),
  (str "txt", str "text/plain"),
  (str "war", str "application/java-archive"),
  (str "wbmp", str "image/vnd.wap.wbmp"),
  (str "webm", str "video/webm"),
  (str "webp", str "image/webp"),
  (str "wml", str "text/vnd.wap.wml"),
  (str "wmlc", str "application/vnd.wap.wmlc"),
  (str "wmv", str "video/x-ms-wmv"),
  (str "woff", str "application/font-woff"),
  (str "xhtml", str "application/xhtml+xml"),
  (str "xls", str "application/vnd.ms-excel"),
  (str "xlsx", str "application/vnd.openxmlformats-officedocument.spreadsheetml.sheet"),
  (str "xml", str "text/xml"),
  (str "xpi", str "application/x-xpinstall"),
  (str "xspf", str "application/xspf+xml"),
  (str "zip", str "application/zip")
]

/-- The final built-in table after the two source-level updates
`mimes['js'] = 'text/javascript'` and `mimes['log'] = 'text/plain'`. -/
def mimesTable : List (Str × Str) :=
  upsert (upsert mimesBase (str "js") (str "text/javascript")) (str "log") (str "text/plain")

/-! ## Content type resolution (`RXFS.sendFile`, lines 475-479) -/

/-- Index of the last occurrence of a character, `s.lastIndexOf(c)`. -/
def lastIndexOf (c : Char) (s : Str) : Option Nat :=
  (List.range s.length).foldl
    (fun acc i => if s.get? i = some c then some i else acc) none

/-- The basename of a path: everything after the last `/` (the whole
string when there is no slash). -/
def basenameOf (p : Str) : Str :=
  match lastIndexOf '/' p with
  | none => p
  | some i => p.drop (i + 1)

/-- `path.parse(p).ext`: the extension of the basename including its dot;
empty when the basename has no dot or only a leading dot (hidden files
such as `.bashrc` have no extension). -/
def extOf (p : Str) : Str :=
  let b := basenameOf p
  match lastIndexOf '.' b with
  | none => []
  | some 0 => []
  | some i => b.drop i

/-- `path.parse(abs).ext.slice(1).toLowerCase()` from `sendFile`: the
extension without its dot, lowercased. -/
def extLower (p : Str) : Str := (extOf p).drop 1 |>.map Char.toLower

/-- The result of a JavaScript bracket read `obj[key]` on a
string-valued object literal: an own property holds a string value; a
key that is absent from the object itself can still hit a property
inherited from `Object.prototype` (`constructor`, `toString`,
`__proto__`, ...), whose value is a truthy function or object, never a
string; otherwise the read yields `undefined`. -/
inductive JsProp
  | strVal (v : Str)
  | protoVal (name : Str)
  | undefined
deriving DecidableEq, Repr

/-- The property names every object literal inherits from
`Object.prototype` (own properties of `Object.prototype` in a standard
JS runtime).  A bracket read of any of these on `{}` yields a truthy
non-string value (`constructor` is the `Object` function, `__proto__`
is `Object.prototype` itself, the rest are methods). -/
def objectProtoProps : List Str :=
  [str "constructor", str "hasOwnProperty", str "isPrototypeOf",
   str "propertyIsEnumerable", str "toLocaleString", str "toString",
   str "valueOf", str "__defineGetter__", str "__defineSetter__",
   str "__lookupGetter__", str "__lookupSetter__", str "__proto__"]

/-- `obj[key]` on a string-valued object literal: own properties are
checked first, then the prototype chain (`Object.prototype`), then
`undefined`. -/
def jsGet (m : List (Str × Str)) (k : Str) : JsProp :=
  match alookup m k with
  | some v => .strVal v
  | none => if k ∈ objectProtoProps then .protoVal k else .undefined

/-- JavaScript truthiness of a property-read result: `undefined` and the
empty string are falsy; every inherited prototype value (a function or
object) is truthy. -/
def JsProp.truthy : JsProp → Bool
  | .strVal v => v ≠ []
  | .protoVal _ => true
  | .undefined => false

/-- JavaScript `a || b` on property-read results. -/
def jsOrProp (a b : JsProp) : JsProp := if a.truthy then a else b

/-- `config.mimes[ext] || mimes[ext] || 'application/octet-stream'`:
the value assigned to the `content-type` header for a served file;
config overrides are consulted first, then the built-in table, then the
default — with genuine JS property-lookup semantics, so an extension
naming an `Object.prototype` property (and the all-lowercase names
`constructor` and `__proto__` do survive the extension's
`toLowerCase()`) hits the inherited truthy value and stops the `||`
chain before the default. -/
def contentTypeFor (cfg : Config) (abs : Str) : JsProp :=
  let ext := extLower abs
  jsOrProp (jsGet cfg.mimes ext)
    (jsOrProp (jsGet mimesTable ext) (.strVal (str "application/octet-stream")))

example : extLower (str "/srv/a/B.TXT") = str "txt" := by decide
example : extOf (str "/srv/.bashrc") = str "" := by decide
example : extOf (str "a.b.c") = str ".c" := by decide
example : extLower (str "/r/x.constructor") = str "constructor" := by decide
example : jsGet [] (str "__proto__") = .protoVal (str "__proto__") := by decide

/-! ## Byte-size formatter (`formatBytes`, lines 559-577) -/

/-- Exactly two decimal places, `x.toFixed(2)` for the nonnegative exact
binary rational `num / den` (the divisions `b/1024`, `b/1024/1024`,
`b/1024/1024/1024` are exact in IEEE double precision for the sizes
concerned, and `toFixed` rounds to the nearest hundredth, ties away from
zero — "if there are two such n, pick the larger n"). -/
def toFixed2 (num den : Nat) : Str :=
  let s := num * 100
  let q := s / den + (if den ≤ 2 * (s % den) then 1 else 0)
  let frac := q % 100
  (Nat.repr (q / 100)).data ++ '.' ::
    (if frac < 10 then '0' :: (Nat.repr frac).data else (Nat.repr frac).data)

/-- `formatBytes`: byte counts below 1024 are rendered verbatim with unit
`B`; larger counts with two-decimal precision in the binary units
`K`, `M`, `G`. -/
def formatBytes (b : Nat) : Str :=
  if b < 1024 then (Nat.repr b).data ++ str " B"
  else if b < 1024 * 1024 then toFixed2 b 1024 ++ str " K"
  else if b < 1024 * 1024 * 1024 then toFixed2 b (1024 * 1024) ++ str " M"
  else toFixed2 b (1024 * 1024 * 1024) ++ str " G"

example : formatBytes 512 = str "512 B" := by decide
example : formatBytes 2048 = str "2.00 K" := by decide
example : formatBytes 1536 = str "1.50 K" := by decide

/-! ## Directory renderer (`dirview`, lines 585-804) -/

/-- One table row of the generated listing HTML.  A row records the data
that appears in its cells; the peripheral timestamp re-formatting
(`formatDate`) is excluded per the specification's scope, so the `ctime`
ISO string is carried verbatim.  An unavailable directory (child count
`N/A`) is rendered de-emphasised and without links. -/
inductive Row
  | up (href : Str)
  | dirLinked (href : Str) (name : Str) (count : Nat) (time : Str)
  | dirUnavail (name : Str) (time : Str)
  | fileRow (href : Str) (name : Str) (sizeText : Str) (time : Str)
deriving DecidableEq, Repr

/-- One entry of the `items` array built by `sendDir`; a directory's
`count` is `none` when its child listing failed (the `'N/A'` marker). -/
inductive Item
  | file (name : Str) (size : Nat) (time : Str)
  | dir (name : Str) (count : Option Nat) (time : Str)
  | etc (name : Str)
deriving DecidableEq, Repr

/-- `dirview`'s `base`: `config.baseurl ? host + '/' + baseurl : host`
(a JS string is truthy iff nonempty). -/
def dirviewBase (cfg : Config) : Str :=
  if cfg.baseurl ≠ [] then
    str "http://localhost:" ++ (Nat.repr cfg.port).data ++ '/' :: cfg.baseurl
  else str "http://localhost:" ++ (Nat.repr cfg.port).data

/-- The parent link's target:
`base + (relpath.indexOf('/') !== -1 ? '/' + relpath.slice(0, relpath.lastIndexOf('/')) : '')`
(`indexOf` finds a slash exactly when `lastIndexOf` does). -/
def upHref (base relpath : Str) : Str :=
  match lastIndexOf '/' relpath with
  | some i => base ++ '/' :: relpath.take i
  | none => base

/-- An item's link target:
`base + (relpath ? '/' + relpath + '/' + name : '/' + name)`. -/
def itemHref (base relpath name : Str) : Str :=
  base ++ (if relpath ≠ [] then '/' :: relpath ++ '/' :: name else '/' :: name)

/-- The three accumulators `dirs`, `files`, `etc` of `dirview`'s item
loop, in loop order.  The `else` branch of the loop is the source's
`// TODO`: it appends nothing, so `etc` stays empty. -/
def dirviewGroups (base relpath : Str) : List Item → List Row × List Row × List Row
  | [] => ([], [], [])
  | item :: rest =>
    let (ds, fls, es) := dirviewGroups base relpath rest
    match item with
    | .dir name (some n) time =>
      (.dirLinked (itemHref base relpath name) name n time :: ds, fls, es)
    | .dir name none time => (.dirUnavail name time :: ds, fls, es)
    | .file name size time =>
      (ds, .fileRow (itemHref base relpath name) name (formatBytes size) time :: fls, es)
    | .etc _ => (ds, fls, es)

/-- The rows of the listing's `<tbody>`, in document order:
the parent link (emitted only for a nonempty relative path), then the
`dirs` accumulator, then `files`, then `etc`. -/
def dirviewRows (cfg : Config) (relpath : Str) (items : List Item) : List Row :=
  let base := dirviewBase cfg
  let upRows : List Row := if relpath ≠ [] then [.up (upHref base relpath)] else []
  let (ds, fls, es) := dirviewGroups base relpath items
  upRows ++ ds ++ fls ++ es

/-! ## Request dispatcher (`RXFS.handle` and senders, lines 401-538) -/

/-- How a file stream ended: all bytes written, or ended early by a
mid-stream read error (the `error` listener calls `res.end()` and logs —
it does not throw). -/
inductive StreamOutcome
  | complete (content : Str)
  | truncated (e : JsError)
deriving DecidableEq, Repr

/-- A finished HTTP response: a plain-text status response, a streamed
file, or a rendered directory listing.  A file response's `content-type`
assignment (`r.headers['content-type'] = ...`) is carried in the
`contentType` field next to the remaining (string-valued) header set,
because the assigned value is a `JsProp` that need not be a string; the
HTTP layer's header-value validation is outside the modelled core. -/
inductive Response
  | status (code : Nat) (msg : Str) (headers : List (Str × Str))
  | fileData (contentType : JsProp) (headers : List (Str × Str)) (outcome : StreamOutcome)
  | dirListing (headers : List (Str × Str)) (rows : List Row)
deriving DecidableEq, Repr

/-- `sendStatus`: set `content-type: text/plain` on the request's header
set and answer `code` with body `code + ' : ' + msg`. -/
def sendStatus (headers : List (Str × Str)) (code : Nat) (msg : Str) : Response :=
  .status code msg (upsert headers (str "content-type") (str "text/plain"))

/-- `sendFile`: resolve the content type from the extension, answer 200
and stream the file; a read error ends the response early without
throwing. -/
def sendFile (cfg : Config) (fs : Fs) (headers : List (Str × Str)) (abs : Str) :
    Response × List FsOp :=
  let ct := contentTypeFor cfg abs
  match fs.read abs with
  | .ok content => (.fileData ct headers (.complete content), [.readOp abs])
  | .error e => (.fileData ct headers (.truncated e), [.readOp abs])

/-- The item-collection loop of `sendDir`: entries classified as file or
directory are stat-ed — **outside any try/catch**, so a stat error is a
thrown exception (`Except.error`); a directory's child count comes from a
nested `readdirSync` whose failure is caught and recorded as `N/A`;
remaining entries become `etc` items. -/
def childItems (fs : Fs) (abs : Str) : List Dirent → Except JsError (List Item) × List FsOp
  | [] => (.ok [], [])
  | d :: ds =>
    if d.kind = .file ∨ d.kind = .dir then
      let p := abs ++ '/' :: d.name
      match fs.stat p with
      | .error e => (.error e, [.statOp p])
      | .ok st =>
        if d.kind = .file then
          match childItems fs abs ds with
          | (.ok items, t) => (.ok (.file d.name st.size st.ctime :: items), .statOp p :: t)
          | (.error e, t) => (.error e, .statOp p :: t)
        else
          match fs.readdir p with
          | .ok l =>
            match childItems fs abs ds with
            | (.ok items, t) =>
              (.ok (.dir d.name (some l.length) st.ctime :: items), .statOp p :: .readdirOp p :: t)
            | (.error e, t) => (.error e, .statOp p :: .readdirOp p :: t)
          | .error _ =>
            match childItems fs abs ds with
            | (.ok items, t) =>
              (.ok (.dir d.name none st.ctime :: items), .statOp p :: .readdirOp p :: t)
            | (.error e, t) => (.error e, .statOp p :: .readdirOp p :: t)
    else
      match childItems fs abs ds with
      | (.ok items, t) => (.ok (.etc d.name :: items), t)
      | (.error e, t) => (.error e, t)

/-- `sendDir`: `fs.readdirSync(r.abs, ...)` is **not** wrapped in a
try/catch, so its failure — and any failure of the per-entry stat — is a
thrown exception; otherwise the items are rendered and answered 200 with
`content-type: text/html`. -/
def sendDir (cfg : Config) (fs : Fs) (headers : List (Str × Str)) (rel abs : Str) :
    Except JsError Response × List FsOp :=
  match fs.readdir abs with
  | .error e => (.error e, [.readdirOp abs])
  | .ok ents =>
    match childItems fs abs ents with
    | (.error e, t) => (.error e, .readdirOp abs :: t)
    | (.ok items, t) =>
      (.ok (.dirListing (upsert headers (str "content-type") (str "text/html"))
        (dirviewRows cfg rel items)), .readdirOp abs :: t)

/-- `RXFS.handle` for a single request (`method`, raw `url`): builds the
request context `R` (which may probe the filesystem when autoindex is
on), then checks the method, then the base-URL prefix, then stats the
resolved path inside a try/catch, and dispatches.  The result is the
response (or the uncaught exception that escapes the listener) together
with the ordered trace of filesystem operations. -/
def handle (cfg : Config) (fs : Fs) (method url : Str) :
    Except JsError Response × List FsOp :=
  let rp := mkR cfg fs url
  let rel := rp.1.1
  let abs := rp.1.2
  let t0 := rp.2
  let headers := cfg.headers
  if method ≠ str "GET" then
    (.ok (sendStatus headers 405 (str "method not allowed: " ++ method)), t0)
  else if ('/' :: cfg.baseurl).isPrefixOf url = false ∧ url ≠ '/' :: cfg.baseurl ++ str "/" then
    (.ok (sendStatus headers 404 (str "not found")), t0)
  else
    match fs.stat abs with
    | .error e =>
      if e.code = str "ENOENT" then
        (.ok (sendStatus headers 404 (str "not found")), t0 ++ [.statOp abs])
      else
        (.ok (sendStatus headers 500 e.message), t0 ++ [.statOp abs])
    | .ok stats =>
      match stats.kind with
      | .file =>
        let ft := sendFile cfg fs headers abs
        (.ok ft.1, t0 ++ .statOp abs :: ft.2)
      | .dir =>
        if cfg.servedir then
          let dt := sendDir cfg fs headers rel abs
          (dt.1, t0 ++ .statOp abs :: dt.2)
        else
          (.ok (sendStatus headers 400
            (str "the server is not configured to serve directories")), t0 ++ [.statOp abs])
      | .other =>
        (.ok (sendStatus headers 400
          (str "the requested item is not a file or directory")), t0 ++ [.statOp abs])

/-! ## Config validator (`Config`'s constructor, lines 252-329) -/

/-- A JavaScript option value as it arrives in the constructor's `opts`
object: string, number, boolean, or a nested object.  Numbers are
modelled as integers (every number the validator accepts satisfies
`Number.isInteger`; a non-integer number would additionally fail the
port range check). -/
inductive JsValue
  | vstr (s : Str)
  | vnum (n : Int)
  | vbool (b : Bool)
  | vobj (fields : List (Str × JsValue))

/-- `typeof v` for an option value. -/
def typeofName : JsValue → Str
  | .vstr _ => str "string"
  | .vnum _ => str "number"
  | .vbool _ => str "boolean"
  | .vobj _ => str "object"

/-- The `Config` class's fields with their declared defaults, before the
value-level checks run. -/
structure RawConfig where
  root : Str := str "."
  port : Int := 1234
  baseurl : Str := str "/"
  autoindex : Bool := false
  servedir : Bool := true
  headers : List (Str × JsValue) :=
    [(str "cache-control", .vstr (str "public, max-age=604800, immutable"))]
  mimes : List (Str × JsValue) := []
  logfile : Str := str ""
  verbose : Bool := true
  debug : Bool := false

/-- One step of the constructor's bulk merge loop: an unrecognized key
throws, a value whose `typeof` differs from the default's throws, and
otherwise the field is overwritten. -/
def applyOpt (c : RawConfig) (kv : Str × JsValue) : Except Str RawConfig :=
  let typeErr (k : Str) (expected : Str) : Except Str RawConfig :=
    .error (str "config." ++ k ++ str " type error: expected a " ++ expected ++
      str ", got " ++ typeofName kv.2)
  if kv.1 = str "root" then
    match kv.2 with | .vstr s => .ok { c with root := s } | _ => typeErr kv.1 (str "string")
  else if kv.1 = str "port" then
    match kv.2 with | .vnum n => .ok { c with port := n } | _ => typeErr kv.1 (str "number")
  else if kv.1 = str "baseurl" then
    match kv.2 with | .vstr s => .ok { c with baseurl := s } | _ => typeErr kv.1 (str "string")
  else if kv.1 = str "autoindex" then
    match kv.2 with | .vbool b => .ok { c with autoindex := b } | _ => typeErr kv.1 (str "boolean")
  else if kv.1 = str "servedir" then
    match kv.2 with | .vbool b => .ok { c with servedir := b } | _ => typeErr kv.1 (str "boolean")
  else if kv.1 = str "headers" then
    match kv.2 with | .vobj m => .ok { c with headers := m } | _ => typeErr kv.1 (str "object")
  else if kv.1 = str "mimes" then
    match kv.2 with | .vobj m => .ok { c with mimes := m } | _ => typeErr kv.1 (str "object")
  else if kv.1 = str "logfile" then
    match kv.2 with | .vstr s => .ok { c with logfile := s } | _ => typeErr kv.1 (str "string")
  else if kv.1 = str "verbose" then
    match kv.2 with | .vbool b => .ok { c with verbose := b } | _ => typeErr kv.1 (str "boolean")
  else if kv.1 = str "debug" then
    match kv.2 with | .vbool b => .ok { c with debug := b } | _ => typeErr kv.1 (str "boolean")
  else .error (str "unrecognized option: " ++ kv.1)

/-- The whole merge loop over the supplied options. -/
def mergeOpts (opts : List (Str × JsValue)) : Except Str RawConfig :=
  opts.foldlM applyOpt {}

/-- The `headers` / `mimes` value check: every value must be a string. -/
def strMapOf (prop : Str) : List (Str × JsValue) → Except Str (List (Str × Str))
  | [] => .ok []
  | (k, .vstr v) :: rest => (strMapOf prop rest).map ((k, v) :: ·)
  | _ :: _ => .error (str "config." ++ prop ++ str " values must be strings")

/-- The `Config` constructor: bulk merge with type checks, then the
value-level checks in source order — nonempty root (resolved through
`path.resolve`, passed in as `pathResolve`; the win32 backslash rewrite
does not apply on this platform), port range, base-url normalisation,
the autoindex/servedir mutual-exclusion check, and the headers/mimes
string-value checks.  `Except.error` is the thrown `ConfigError`. -/
def configConstruct (opts : List (Str × JsValue)) (pathResolve : Str → Str) :
    Except Str Config :=
  match mergeOpts opts with
  | .error e => .error e
  | .ok c =>
    if c.root = [] then .error (str "config.root can't be an empty string")
    else
      let root := pathResolve c.root
      if ¬(1 ≤ c.port ∧ c.port ≤ 65535) then .error (str "invalid port specified")
      else
        let baseurl := stripTrailingSlash (stripLeadingSlash (collapseSlashes c.baseurl))
        if c.autoindex = true ∧ c.servedir = true then
          .error (str "config.autoindex and config.servedir are mutally exclusive")
        else
          match strMapOf (str "headers") c.headers, strMapOf (str "mimes") c.mimes with
          | .error e, _ => .error e
          | .ok _, .error e => .error e
          | .ok headers, .ok mimes =>
            .ok { root := root, port := c.port.toNat, baseurl := baseurl,
                  autoindex := c.autoindex, servedir := c.servedir,
                  headers := headers, mimes := mimes }

/-! ## Request id counter (`RXFS.reqcount` and `handle`'s first line) -/

/-- `s.padStart(3, '0')`. -/
def padStart3 (s : Str) : Str := List.replicate (3 - s.length) '0' ++ s

/-- The per-instance mutable server state: the request counter. -/
structure ServerSt where
  reqcount : Nat
deriving DecidableEq, Repr

/-- `const id = (this.reqcount++).toString().padStart(3, '0')`: the
request receives the counter's current value (as number and as the
padded id string) and the counter is incremented by one. -/
def handleId (s : ServerSt) : ServerSt × Nat × Str :=
  (⟨s.reqcount + 1⟩, s.reqcount, padStart3 (Nat.repr s.reqcount).data)

/-- A sequence of `k` requests against one server instance: the final
state and the `(numeric id, id string)` pairs in arrival order.  Node's
event loop runs the synchronous prefix of each listener to completion,
so the increments are sequential even for concurrent requests. -/
def runRequests (s : ServerSt) : Nat → ServerSt × List (Nat × Str)
  | 0 => (s, [])
  | k + 1 =>
    let st := handleId s
    let rest := runRequests st.1 k
    (rest.1, st.2 :: rest.2)

/-! ## Lexical path semantics (for the traversal analysis of the resolver) -/

/-- Split a string on `/`. -/
def splitSlashAux : Str → Str → List Str
  | [], cur => [cur.reverse]
  | '/' :: rest, cur => cur.reverse :: splitSlashAux rest []
  | c :: rest, cur => splitSlashAux rest (c :: cur)

/-- The `/`-separated segments of a path. -/
def splitSlash (s : Str) : List Str := splitSlashAux s []

/-- POSIX lexical resolution of the segments of an absolute path: empty
and `.` segments vanish, `..` pops the previous segment (`..` above the
root stays at the root). -/
def lexSegsAux : List Str → List Str → List Str
  | acc, [] => acc.reverse
  | acc, seg :: rest =>
    if seg = [] ∨ seg = str "." then lexSegsAux acc rest
    else if seg = str ".." then lexSegsAux (acc.drop 1) rest
    else lexSegsAux (seg :: acc) rest

/-- The filesystem location an absolute path string denotes, resolved
lexically. -/
def lexNormalize (p : Str) : Str :=
  '/' :: List.intercalate (str "/") (lexSegsAux [] (splitSlash p))

/-- Whether a lexically normalized path lies inside (or is) `root`. -/
def isUnder (root p : Str) : Bool :=
  root = p || (root ++ str "/").isPrefixOf p

example : lexNormalize (str "/srv/www/../../etc/passwd") = str "/etc/passwd" := by decide
example : isUnder (str "/srv") (str "/srv/a") = true := by decide

/-! ## Auxiliary definitions used by the verification statements -/

/-- Whether a string contains two adjacent slashes (the situation the
`/\/{2,}/g` replacement changes). -/
def hasDoubleSlash : Str → Bool
  | [] => false
  | [_] => false
  | c1 :: c2 :: rest => (c1 = '/' && c2 = '/') || hasDoubleSlash (c2 :: rest)

/-- Whether an `Except` is a success. -/
def exceptOk : Except JsError α → Bool
  | .ok _ => true
  | .error _ => false

/-- The precondition under which `handle` cannot hit the uncaught
exceptions of `sendDir`: whenever the resolved path stats as a directory
that will be listed (`servedir` on), enumerating it succeeds and each
listed file/directory entry can be stat-ed. -/
def dirListingSafe (cfg : Config) (fs : Fs) (url : Str) : Bool :=
  let abs := (mkR cfg fs url).1.2
  match fs.stat abs with
  | .error _ => true
  | .ok st =>
    if st.kind = .dir ∧ cfg.servedir = true then
      match fs.readdir abs with
      | .error _ => false
      | .ok ents =>
        ents.all (fun d => d.kind = .other || exceptOk (fs.stat (abs ++ '/' :: d.name)))
    else true

/-- The listing row a directory item contributes (the claim's "one row
per child directory"). -/
def dirRowOf (base relpath : Str) : Item → Option Row
  | .dir name (some n) time => some (.dirLinked (itemHref base relpath name) name n time)
  | .dir name none time => some (.dirUnavail name time)
  | _ => none

/-- The listing row a file item contributes. -/
def fileRowOf (base relpath : Str) : Item → Option Row
  | .file name size time =>
    some (.fileRow (itemHref base relpath name) name (formatBytes size) time)
  | _ => none

/-- A filesystem on which every operation fails with `ENOENT` (an empty
directory tree). -/
def fsAllError : Fs where
  stat := fun _ => .error ⟨str "ENOENT", str "no such file or directory"⟩
  readdir := fun _ => .error ⟨str "ENOENT", str "no such file or directory"⟩
  read := fun _ => .error ⟨str "ENOENT", str "no such file or directory"⟩

/-- A filesystem with a single directory `/r/d` that exists but cannot
be enumerated (`EACCES`), as for a directory with permissions `000`. -/
def fsUnreadableDir : Fs where
  stat := fun p =>
    if p = str "/r/d" then .ok ⟨.dir, 0, str "2021-04-12T00:00:00.000Z"⟩
    else .error ⟨str "ENOENT", str "no such file or directory"⟩
  readdir := fun _ => .error ⟨str "EACCES", str "permission denied, scandir"⟩
  read := fun _ => .error ⟨str "EACCES", str "permission denied, open"⟩

/-- A filesystem whose directory `/r/d` contains an `index.html` file. -/
def fsWithIndex : Fs where
  stat := fun p =>
    if p = str "/r/d/index.html" then .ok ⟨.file, 3, str "2021-04-12T00:00:00.000Z"⟩
    else if p = str "/r/d" then .ok ⟨.dir, 0, str "2021-04-12T00:00:00.000Z"⟩
    else .error ⟨str "ENOENT", str "no such file or directory"⟩
  readdir := fun _ => .error ⟨str "ENOENT", str "no such file or directory"⟩
  read := fun _ => .error ⟨str "ENOENT", str "no such file or directory"⟩

/-- Equality of modelled filesystem-call results is decidable (used to
evaluate concrete scenarios). -/
instance {ε α : Type} [DecidableEq ε] [DecidableEq α] : DecidableEq (Except ε α) :=
  fun a b =>
    match a, b with
    | .ok x, .ok y =>
      if h : x = y then .isTrue (by rw [h]) else .isFalse (by intro hc; cases hc; exact h rfl)
    | .error x, .error y =>
      if h : x = y then .isTrue (by rw [h]) else .isFalse (by intro hc; cases hc; exact h rfl)
    | .ok _, .error _ => .isFalse (by intro hc; cases hc)
    | .error _, .ok _ => .isFalse (by intro hc; cases hc)

/-! # Theorems -/

/-! ## Shared lemmas -/

theorem alookup_mem {m : List (Str × Str)} {k v : Str} (h : alookup m k = some v) :
    (k, v) ∈ m := by
  induction m with
  | nil => simp [alookup] at h
  | cons p rest ih =>
    rw [alookup] at h
    by_cases hk : p.1 = k
    · rw [if_pos hk] at h
      obtain ⟨p1, p2⟩ := p
      simp only at hk h
      subst hk
      injection h with h2
      subst h2
      exact List.mem_cons_self _ _
    · rw [if_neg hk] at h
      exact List.mem_cons_of_mem _ (ih h)

theorem mimesTable_values_nonempty : ∀ kv ∈ mimesTable, kv.2 ≠ [] := by decide

/-! ## C8: byte-size formatter -/

/-- C8.  The byte-size formatter maps 512 to "512 B", 2048 to "2.00 K",
1048576 to "1.00 M" and 1073741824 to "1.00 G"; every byte count below
1024 is rendered verbatim with unit B, and every larger count is rendered
with two-decimal precision (`toFixed2`, round half up, exactly matching
`Number.prototype.toFixed(2)` on these exactly-representable quotients)
in the binary units K, M, G. -/
theorem formatBytes_spec :
    formatBytes 512 = str "512 B" ∧
    formatBytes 2048 = str "2.00 K" ∧
    formatBytes 1048576 = str "1.00 M" ∧
    formatBytes 1073741824 = str "1.00 G" ∧
    (∀ b, b < 1024 → formatBytes b = (Nat.repr b).data ++ str " B") ∧
    (∀ b, 1024 ≤ b → b < 1048576 → formatBytes b = toFixed2 b 1024 ++ str " K") ∧
    (∀ b, 1048576 ≤ b → b < 1073741824 →
      formatBytes b = toFixed2 b 1048576 ++ str " M") ∧
    (∀ b, 1073741824 ≤ b → formatBytes b = toFixed2 b 1073741824 ++ str " G") := by
  refine ⟨by decide, by decide, by decide, by decide, ?_, ?_, ?_, ?_⟩
  · intro b h
    unfold formatBytes
    rw [if_pos h]
  · intro b h1 h2
    unfold formatBytes
    rw [if_neg (by omega), if_pos (by omega)]
  · intro b h1 h2
    unfold formatBytes
    rw [if_neg (by omega), if_neg (by omega), if_pos (by omega)]
  · intro b h1
    unfold formatBytes
    rw [if_neg (by omega), if_neg (by omega), if_neg (by omega)]

theorem formatBytes_spec_witness :
    formatBytes 999 = (Nat.repr 999).data ++ str " B" ∧
    formatBytes 4096 = toFixed2 4096 1024 ++ str " K" ∧
    formatBytes 2097152 = toFixed2 2097152 1048576 ++ str " M" ∧
    formatBytes 2147483648 = toFixed2 2147483648 1073741824 ++ str " G" :=
  ⟨formatBytes_spec.2.2.2.2.1 999 (by decide),
   formatBytes_spec.2.2.2.2.2.1 4096 (by decide) (by decide),
   formatBytes_spec.2.2.2.2.2.2.1 2097152 (by decide) (by decide),
   formatBytes_spec.2.2.2.2.2.2.2 2147483648 (by decide)⟩

/-! ## C9: request ids -/

theorem runRequests_succ (c k : Nat) :
    runRequests ⟨c⟩ (k + 1) =
      ((runRequests ⟨c + 1⟩ k).1,
        (c, padStart3 (Nat.repr c).data) :: (runRequests ⟨c + 1⟩ k).2) := rfl

theorem runRequests_general (c k : Nat) :
    (runRequests ⟨c⟩ k).2.map Prod.fst = List.range' c k ∧
    (runRequests ⟨c⟩ k).1.reqcount = c + k ∧
    (runRequests ⟨c⟩ k).2.map Prod.snd =
      (List.range' c k).map (fun n => padStart3 (Nat.repr n).data) := by
  induction k generalizing c with
  | zero => simp [runRequests]
  | succ k ih =>
    obtain ⟨h1, h2, h3⟩ := ih (c + 1)
    refine ⟨?_, ?_, ?_⟩
    · rw [runRequests_succ]
      simp [List.range', h1]
    · rw [runRequests_succ]
      show (runRequests ⟨c + 1⟩ k).1.reqcount = c + (k + 1)
      rw [h2]
      omega
    · rw [runRequests_succ]
      simp [List.range', h3]

/-- C9.  Over any sequence of `k` requests handled by one server
instance, the numeric ids assigned are exactly `0, 1, ..., k-1` — unique,
sequential and strictly increasing — the counter ends at `k`, and the id
strings are the zero-padded decimal renderings of those numbers. -/
theorem request_ids_sequential (k : Nat) :
    (runRequests ⟨0⟩ k).2.map Prod.fst = List.range k ∧
    ((runRequests ⟨0⟩ k).2.map Prod.fst).Nodup ∧
    List.Pairwise (· < ·) ((runRequests ⟨0⟩ k).2.map Prod.fst) ∧
    (runRequests ⟨0⟩ k).1.reqcount = k ∧
    (runRequests ⟨0⟩ k).2.map Prod.snd =
      (List.range k).map (fun n => padStart3 (Nat.repr n).data) := by
  obtain ⟨h1, h2, h3⟩ := runRequests_general 0 k
  rw [List.range_eq_range']
  refine ⟨h1, ?_, ?_, by simpa using h2, h3⟩
  · rw [h1]
    exact List.nodup_range' 0 k
  · rw [h1]
    exact List.pairwise_lt_range' 0 k

/-! ## C10: resolver preserves `..` and applies no containment check -/

/-- C10.  The resolver's output is exactly the percent-decoded URL with
the first occurrence of the base URL removed, slash runs collapsed and
leading/trailing slashes stripped, joined to the configured root; `..`
segments survive this pipeline verbatim and no containment check is
applied, so the request `/%2e%2e/%2e%2e/etc/passwd` against root
`/srv/www` resolves to an absolute path that lexically denotes
`/etc/passwd`, outside the root. -/
theorem resolver_no_containment :
    (∀ cfg url, resolvePre cfg url =
      (stripTrailingSlash (stripLeadingSlash (collapseSlashes
        (removeFirst cfg.baseurl (jsDecodeOr url)))),
       joinAbs cfg.root (relOf cfg url))) ∧
    percentDecode (str "/%2e%2e/%2e%2e/etc/passwd") = some (str "/../../etc/passwd") ∧
    resolvePre (⟨str "/srv/www", 1234, str "", false, true, [], []⟩ : Config)
        (str "/%2e%2e/%2e%2e/etc/passwd") =
      (str "../../etc/passwd", str "/srv/www/../../etc/passwd") ∧
    lexNormalize (str "/srv/www/../../etc/passwd") = str "/etc/passwd" ∧
    isUnder (str "/srv/www") (lexNormalize (str "/srv/www/../../etc/passwd")) = false :=
  ⟨fun _ _ => rfl, by decide, by decide, by decide, by decide⟩

/-! ## C5: directory listing row order -/

theorem dirviewGroups_eq (base relpath : Str) (items : List Item) :
    dirviewGroups base relpath items =
      (items.filterMap (dirRowOf base relpath),
       items.filterMap (fileRowOf base relpath), []) := by
  induction items with
  | nil => rfl
  | cons item rest ih =>
    cases item with
    | file name size time =>
      simp [dirviewGroups, dirRowOf, fileRowOf, ih]
    | dir name count time =>
      cases count with
      | none => simp [dirviewGroups, dirRowOf, fileRowOf, ih]
      | some n => simp [dirviewGroups, dirRowOf, fileRowOf, ih]
    | etc name =>
      simp [dirviewGroups, dirRowOf, fileRowOf, ih]

/-- C5 (amended).  The listing's table rows are, in order: the parent
(`..`) link row exactly when the relative path is nonempty, then one row
per child directory, then one row per child file, each group in the
supplied iteration order — and, contrary to the claim's last part, **no**
row at all for "other" children: the renderer's branch for them is an
unimplemented `// TODO` that appends nothing. -/
theorem dirview_row_order (cfg : Config) (relpath : Str) (items : List Item) :
    dirviewRows cfg relpath items =
      (if relpath ≠ [] then [Row.up (upHref (dirviewBase cfg) relpath)] else []) ++
      items.filterMap (dirRowOf (dirviewBase cfg) relpath) ++
      items.filterMap (fileRowOf (dirviewBase cfg) relpath) := by
  simp only [dirviewRows, dirviewGroups_eq]
  simp

/-- C5 (counterexample to the claim as stated).  A listing of a
directory whose single child is an "other" entry (`sock`) renders only
the parent-link row: there is no row for the "other" child. -/
theorem dirview_other_row_counterexample :
    dirviewRows (⟨str "/r", 1234, str "", false, true, [], []⟩ : Config) (str "d")
        [Item.etc (str "sock")] = [Row.up (str "http://localhost:1234")] ∧
    (dirviewRows (⟨str "/r", 1234, str "", false, true, [], []⟩ : Config) (str "d")
        [Item.etc (str "sock")]).length = 1 := by
  exact ⟨by decide, by decide⟩

/-! ## C6: content-type lookup -/

theorem mimesTable_keys_not_proto : ∀ kv ∈ mimesTable, kv.1 ∉ objectProtoProps := by
  decide

/-- C6 (amended).  The content type of a served file is looked up by
lowercased extension in the config MIME overrides first (a nonempty
own-property override wins), then in the built-in table; an extension
that is an own key of neither map **and not the name of a property
inherited from `Object.prototype`** yields `application/octet-stream` —
but for an extension naming an inherited property (the all-lowercase
names `constructor` and `__proto__` survive the `toLowerCase()`), the
bracket lookup returns the inherited truthy non-string value, which
stops the `||` chain, so the content-type is **not**
`application/octet-stream`.  `sendFile`'s response carries exactly the
looked-up value. -/
theorem content_type_lookup :
    (∀ (cfg : Config) (abs : Str),
      alookup cfg.mimes (extLower abs) = none →
      alookup mimesTable (extLower abs) = none →
      extLower abs ∉ objectProtoProps →
      contentTypeFor cfg abs = .strVal (str "application/octet-stream")) ∧
    (∀ (cfg : Config) (abs v : Str),
      alookup cfg.mimes (extLower abs) = some v → v ≠ [] →
      contentTypeFor cfg abs = .strVal v) ∧
    (∀ (cfg : Config) (abs w : Str),
      alookup cfg.mimes (extLower abs) = none →
      alookup mimesTable (extLower abs) = some w →
      contentTypeFor cfg abs = .strVal w) ∧
    (∀ (cfg : Config) (abs : Str),
      alookup cfg.mimes (extLower abs) = none →
      extLower abs ∈ objectProtoProps →
      contentTypeFor cfg abs = .protoVal (extLower abs)) ∧
    (∀ (cfg : Config) (fs : Fs) (headers : List (Str × Str)) (abs : Str),
      ∃ out, (sendFile cfg fs headers abs).1 =
        Response.fileData (contentTypeFor cfg abs) headers out) := by
  refine ⟨?_, ?_, ?_, ?_, ?_⟩
  · intro cfg abs h1 h2 h3
    simp [contentTypeFor, jsGet, jsOrProp, JsProp.truthy, h1, h2, h3]
  · intro cfg abs v h1 hne
    simp [contentTypeFor, jsGet, jsOrProp, JsProp.truthy, h1, hne]
  · intro cfg abs w h1 h2
    have hw : w ≠ [] := mimesTable_values_nonempty _ (alookup_mem h2)
    have hnp : extLower abs ∉ objectProtoProps :=
      mimesTable_keys_not_proto _ (alookup_mem h2)
    simp [contentTypeFor, jsGet, jsOrProp, JsProp.truthy, h1, h2, hnp, hw]
  · intro cfg abs h1 hm
    simp [contentTypeFor, jsGet, jsOrProp, JsProp.truthy, h1, hm]
  · intro cfg fs headers abs
    unfold sendFile
    cases fs.read abs with
    | ok content => exact ⟨.complete content, rfl⟩
    | error e => exact ⟨.truncated e, rfl⟩

/-- C6 (counterexample to the claim as stated).  The extension
`constructor` of the reachable file path `/r/x.constructor` is a key of
neither the (empty) override map nor the built-in table, yet the served
content-type is the inherited `Object.prototype.constructor` — a truthy
non-string that wins the `||` chain — and not
`application/octet-stream`; likewise for `__proto__`. -/
theorem content_type_prototype_counterexample :
    alookup ([] : List (Str × Str)) (str "constructor") = none ∧
    alookup mimesTable (str "constructor") = none ∧
    contentTypeFor (⟨str "/r", 1234, str "", false, true, [], []⟩ : Config)
      (str "/r/x.constructor") = .protoVal (str "constructor") ∧
    contentTypeFor (⟨str "/r", 1234, str "", false, true, [], []⟩ : Config)
      (str "/r/x.__proto__") = .protoVal (str "__proto__") ∧
    JsProp.protoVal (str "constructor") ≠ .strVal (str "application/octet-stream") :=
  ⟨by decide, by decide, by decide, by decide, by decide⟩

theorem content_type_lookup_witness :
    contentTypeFor (⟨str "/r", 1234, str "", false, true, [], []⟩ : Config)
      (str "/a/file.zzz") = .strVal (str "application/octet-stream") ∧
    contentTypeFor
      (⟨str "/r", 1234, str "", false, true, [], [(str "x", str "text/x-custom")]⟩ : Config)
      (str "/f.x") = .strVal (str "text/x-custom") ∧
    contentTypeFor (⟨str "/r", 1234, str "", false, true, [], []⟩ : Config)
      (str "/f.TXT") = .strVal (str "text/plain") ∧
    contentTypeFor (⟨str "/r", 1234, str "", false, true, [], []⟩ : Config)
      (str "/r/y.__proto__") = .protoVal (str "__proto__") :=
  ⟨content_type_lookup.1 _ _ (by decide) (by decide) (by decide),
   content_type_lookup.2.1 _ _ _ (by decide) (by decide),
   content_type_lookup.2.2.1 _ _ _ (by decide) (by decide),
   content_type_lookup.2.2.2.1 _ _ (by decide) (by decide)⟩

/-! ## C4: autoindex substitution -/

/-- C4.  If autoindex is enabled and `abs + "/index.html"` exists, the
resolver substitutes: the relative path becomes `rel + "/index.html"`
(just `index.html` at the root) and the absolute path gets `/index.html`
appended; if autoindex is off, or the index file does not exist, no
substitution occurs — and a stat failure on the index path (including an
unreadable directory) makes the existence check report `false` rather
than throw. -/
theorem autoindex_substitution (cfg : Config) (fs : Fs) (url : Str) :
    (cfg.autoindex = true →
      fs.existsSync (joinAbs cfg.root (relOf cfg url) ++ str "/index.html") = true →
      (mkR cfg fs url).1 =
        ((if relOf cfg url = [] then str "index.html"
          else relOf cfg url ++ str "/index.html"),
         joinAbs cfg.root (relOf cfg url) ++ str "/index.html")) ∧
    ((cfg.autoindex = false ∨
      fs.existsSync (joinAbs cfg.root (relOf cfg url) ++ str "/index.html") = false) →
      (mkR cfg fs url).1 = (relOf cfg url, joinAbs cfg.root (relOf cfg url))) ∧
    (∀ e, fs.stat (joinAbs cfg.root (relOf cfg url) ++ str "/index.html") = .error e →
      fs.existsSync (joinAbs cfg.root (relOf cfg url) ++ str "/index.html") = false) := by
  refine ⟨?_, ?_, ?_⟩
  · intro ha hex
    simp [mkR, ha, hex]
  · intro h
    cases h with
    | inl ha => simp [mkR, ha]
    | inr hex =>
      cases ha : cfg.autoindex with
      | false => simp [mkR, ha]
      | true => simp [mkR, ha, hex]
  · intro e he
    unfold Fs.existsSync
    rw [he]

theorem autoindex_substitution_witness :
    (mkR (⟨str "/r", 1234, str "", true, false, [], []⟩ : Config) fsWithIndex
      (str "/d")).1 = (str "d/index.html", str "/r/d/index.html") ∧
    Fs.existsSync fsAllError (str "/r/d/index.html") = false := by
  refine ⟨?_, ?_⟩
  · have h := (autoindex_substitution
      (⟨str "/r", 1234, str "", true, false, [], []⟩ : Config) fsWithIndex (str "/d")).1
      rfl (by decide)
    exact h.trans (by decide)
  · exact (autoindex_substitution
      (⟨str "/r", 1234, str "", true, false, [], []⟩ : Config) fsAllError (str "/d")).2.2
      ⟨str "ENOENT", str "no such file or directory"⟩ (by decide)

/-! ## C3: non-GET requests -/

theorem mkR_trace (cfg : Config) (fs : Fs) (url : Str) :
    (mkR cfg fs url).2 =
      if cfg.autoindex then
        [FsOp.existsOp (joinAbs cfg.root (relOf cfg url) ++ str "/index.html")]
      else [] := by
  cases hai : cfg.autoindex with
  | false => simp [mkR, hai]
  | true =>
    by_cases hex :
      fs.existsSync (joinAbs cfg.root (relOf cfg url) ++ str "/index.html") = true
    · simp [mkR, hai, hex]
    · simp [mkR, hai, hex]

/-- C3 (amended).  A non-GET request is always answered 405 with a
message naming the method; before that response no stat, readdir or read
happens, and no filesystem access at all happens when autoindex is
disabled — but when autoindex is enabled, the request-context constructor
performs one `existsSync` probe before the method check. -/
theorem method_check_405 (cfg : Config) (fs : Fs) (method url : Str)
    (h : method ≠ str "GET") :
    (handle cfg fs method url).1 =
      .ok (sendStatus cfg.headers 405 (str "method not allowed: " ++ method)) ∧
    (cfg.autoindex = false → (handle cfg fs method url).2 = []) ∧
    (∀ op ∈ (handle cfg fs method url).2, ∃ p, op = FsOp.existsOp p) := by
  have ht : (handle cfg fs method url).2 = (mkR cfg fs url).2 := by
    simp [handle, h]
  refine ⟨by simp [handle, h], ?_, ?_⟩
  · intro ha
    rw [ht, mkR_trace, ha]
    simp
  · intro op hop
    rw [ht, mkR_trace] at hop
    by_cases ha : cfg.autoindex = true
    · rw [if_pos ha] at hop
      simp at hop
      exact ⟨_, hop⟩
    · rw [if_neg ha] at hop
      simp at hop

theorem method_check_405_witness :
    (str "DELETE" ≠ str "GET") ∧
    (handle (⟨str "/r", 1234, str "", false, true, [], []⟩ : Config) fsAllError
      (str "DELETE") (str "/x")).1 =
      .ok (sendStatus (⟨str "/r", 1234, str "", false, true, [], []⟩ : Config).headers 405
        (str "method not allowed: " ++ str "DELETE")) :=
  ⟨by decide,
   (method_check_405 _ fsAllError (str "DELETE") (str "/x") (by decide)).1⟩

/-- C3 (counterexample to the claim as stated).  With autoindex enabled,
a POST request is answered 405 as claimed, but the request-context
constructor has already probed the filesystem (`existsSync` on
`/r/x/index.html`) before that response — the claim's "no filesystem
access occurs before that response, for every configuration (including
autoindex enabled)" is false. -/
theorem method_check_fs_access_counterexample :
    (handle (⟨str "/r", 1234, str "", true, false, [], []⟩ : Config) fsAllError
      (str "POST") (str "/x")).2 = [FsOp.existsOp (str "/r/x/index.html")] ∧
    (handle (⟨str "/r", 1234, str "", true, false, [], []⟩ : Config) fsAllError
      (str "POST") (str "/x")).1 =
      .ok (.status 405 (str "method not allowed: POST")
        [(str "content-type", str "text/plain")]) ∧
    [FsOp.existsOp (str "/r/x/index.html")] ≠ ([] : List FsOp) :=
  ⟨by decide, by decide, by decide⟩

/-! ## C2: exception safety of `handle` -/

theorem childItems_ok (fs : Fs) (abs : Str) (ds : List Dirent)
    (h : ∀ d ∈ ds, d.kind = .other ∨ exceptOk (fs.stat (abs ++ '/' :: d.name)) = true) :
    ∃ items, (childItems fs abs ds).1 = .ok items := by
  induction ds with
  | nil => exact ⟨[], rfl⟩
  | cons d rest ih =>
    obtain ⟨items, hitems⟩ := ih (fun x hx => h x (List.mem_cons_of_mem _ hx))
    rcases hrest : childItems fs abs rest with ⟨res, t⟩
    rw [hrest] at hitems
    simp only at hitems
    subst hitems
    by_cases hk : d.kind = .file ∨ d.kind = .dir
    · have hstat : ∃ st, fs.stat (abs ++ '/' :: d.name) = .ok st := by
        rcases h d (List.mem_cons_self _ _) with h1 | h1
        · rcases hk with h2 | h2 <;> rw [h1] at h2 <;> cases h2
        · cases hs : fs.stat (abs ++ '/' :: d.name) with
          | ok st => exact ⟨st, rfl⟩
          | error e => rw [hs] at h1; simp [exceptOk] at h1
      obtain ⟨st, hst⟩ := hstat
      by_cases hf : d.kind = .file
      · refine ⟨.file d.name st.size st.ctime :: items, ?_⟩
        simp [childItems, if_pos hk, hst, hrest, hf]
      · have hd : d.kind = FileKind.dir := hk.resolve_left hf
        cases hr : fs.readdir (abs ++ '/' :: d.name) with
        | ok l =>
          refine ⟨.dir d.name (some l.length) st.ctime :: items, ?_⟩
          simp [childItems, if_pos hk, hst, hrest, hf, hd, hr]
        | error e =>
          refine ⟨.dir d.name none st.ctime :: items, ?_⟩
          simp [childItems, if_pos hk, hst, hrest, hf, hd, hr]
    · refine ⟨.etc d.name :: items, ?_⟩
      simp [childItems, if_neg hk, hrest]

/-- C2 (amended).  Handling a request never raises an uncaught exception
**provided** that, whenever the resolved path stats as a directory to be
listed, enumerating it succeeds and every listed file/directory entry can
be stat-ed (`dirListingSafe`): URL-decode failures, stat failures of the
resolved path, unreadable subdirectories during listing (child-count
falls back to `N/A`) and mid-stream read errors are all caught.  Without
that proviso the claim is false — see the counterexample: the listing's
own `readdirSync` and its per-entry `statSync` run outside any
try/catch. -/
theorem handle_no_uncaught (cfg : Config) (fs : Fs) (method url : Str)
    (hsafe : dirListingSafe cfg fs url = true) :
    ∃ resp, (handle cfg fs method url).1 = .ok resp := by
  simp only [handle]
  split
  · exact ⟨_, rfl⟩
  · split
    · exact ⟨_, rfl⟩
    · split
      next e heq =>
        split
        · exact ⟨_, rfl⟩
        · exact ⟨_, rfl⟩
      next stats heq =>
        split
        next hkind => exact ⟨_, rfl⟩
        next hkind =>
          split
          next hs =>
            simp only [dirListingSafe, heq] at hsafe
            rw [if_pos ⟨hkind, hs⟩] at hsafe
            rcases hr : fs.readdir ((mkR cfg fs url).1.2) with e2 | ents
            · simp only [hr] at hsafe
              exact (Bool.false_ne_true hsafe).elim
            · simp only [hr] at hsafe
              have hall : ∀ d ∈ ents, d.kind = .other ∨
                  exceptOk (fs.stat ((mkR cfg fs url).1.2 ++ '/' :: d.name)) = true := by
                intro d hd
                have hx := List.all_eq_true.mp hsafe d hd
                rcases Bool.or_eq_true_iff.mp hx with h1 | h1
                · exact Or.inl (of_decide_eq_true h1)
                · exact Or.inr h1
              obtain ⟨items, hitems⟩ :=
                childItems_ok fs ((mkR cfg fs url).1.2) ents hall
              rcases hci : childItems fs ((mkR cfg fs url).1.2) ents with ⟨res, t⟩
              rw [hci] at hitems
              simp only at hitems
              subst hitems
              have hsend : (sendDir cfg fs cfg.headers
                  (mkR cfg fs url).1.1 (mkR cfg fs url).1.2).1 =
                  .ok (.dirListing (upsert cfg.headers (str "content-type") (str "text/html"))
                    (dirviewRows cfg (mkR cfg fs url).1.1 items)) := by
                simp [sendDir, hr, hci]
              exact ⟨_, hsend⟩
          next hs => exact ⟨_, rfl⟩
        next hkind => exact ⟨_, rfl⟩

theorem handle_no_uncaught_witness :
    dirListingSafe (⟨str "/r", 1234, str "", false, true, [], []⟩ : Config) fsAllError
      (str "/x") = true ∧
    ∃ resp, (handle (⟨str "/r", 1234, str "", false, true, [], []⟩ : Config) fsAllError
      (str "GET") (str "/x")).1 = .ok resp :=
  ⟨by decide, handle_no_uncaught _ fsAllError (str "GET") (str "/x") (by decide)⟩

/-- C2 (counterexample to the claim as stated).  A GET request for an
existing directory that cannot be enumerated (permissions), with
directory serving enabled, escapes as an uncaught exception: the
`readdirSync` failure inside `sendDir` is not caught anywhere, so one
failing request crashes the process. -/
theorem handle_uncaught_counterexample :
    (handle (⟨str "/r", 1234, str "", false, true, [], []⟩ : Config) fsUnreadableDir
      (str "GET") (str "/d")).1 =
      .error ⟨str "EACCES", str "permission denied, scandir"⟩ := by decide

/-! ## C7: autoindex/servedir mutual exclusion -/

/-- C7.  No configuration input on which both `autoindex` and `servedir`
come out true is ever accepted: every constructed `Config` has at most
one of the two flags set, because the constructor throws before
completing whenever both are true (the defaults leave `servedir` on, so
even setting `autoindex` alone is rejected).  The throw happens inside
the `Config` constructor, which the server constructor runs before it
starts listening. -/
theorem config_flags_exclusive (opts : List (Str × JsValue)) (resolve : Str → Str)
    (cfg : Config) (h : configConstruct opts resolve = .ok cfg) :
    ¬(cfg.autoindex = true ∧ cfg.servedir = true) := by
  unfold configConstruct at h
  split at h
  · exact Except.noConfusion h
  · split at h
    · exact Except.noConfusion h
    · split at h
      · exact Except.noConfusion h
      · split at h
        next hflag => exact Except.noConfusion h
        next hflag =>
          split at h
          · exact Except.noConfusion h
          · exact Except.noConfusion h
          · injection h with h2
            subst h2
            intro hc
            exact hflag ⟨hc.1, hc.2⟩

theorem config_flags_exclusive_witness :
    configConstruct [] (fun s => s) =
      .ok ⟨str ".", 1234, str "", false, true,
        [(str "cache-control", str "public, max-age=604800, immutable")], []⟩ ∧
    ¬((⟨str ".", 1234, str "", false, true,
        [(str "cache-control", str "public, max-age=604800, immutable")], []⟩ : Config).autoindex = true ∧
      (⟨str ".", 1234, str "", false, true,
        [(str "cache-control", str "public, max-age=604800, immutable")], []⟩ : Config).servedir = true) :=
  ⟨rfl, config_flags_exclusive [] (fun s => s) _ rfl⟩

/-! ## C1: the resolution round-trip -/

theorem isPrefixOf_append_self (s t : Str) : s.isPrefixOf (s ++ t) = true := by
  induction s with
  | nil => cases t <;> rfl
  | cons a s' ih => simp [List.isPrefixOf, ih]

theorem removeFirst_append (s t : Str) : removeFirst s (s ++ t) = t := by
  cases s with
  | nil => cases t <;> rfl
  | cons a s' =>
    have hpre := isPrefixOf_append_self (a :: s') t
    rw [List.cons_append] at hpre
    show removeFirst (a :: s') (a :: (s' ++ t)) = t
    rw [removeFirst, if_pos hpre]
    simp [List.length_cons, List.drop_succ_cons, List.drop_left]

theorem hasDoubleSlash_cons (c : Char) (l : Str) (h : hasDoubleSlash (c :: l) = false) :
    hasDoubleSlash l = false := by
  cases l with
  | nil => rfl
  | cons c2 r =>
    rw [hasDoubleSlash] at h
    exact (Bool.or_eq_false_iff.mp h).2

theorem collapseAux_noDD : ∀ (l : Str) (flag : Bool), hasDoubleSlash l = false →
    (flag = true → l.head? ≠ some '/') → collapseAux flag l = l := by
  intro l
  induction l with
  | nil => intro flag _ _; rfl
  | cons c rest ih =>
    intro flag hdd hflag
    have hr : hasDoubleSlash rest = false := hasDoubleSlash_cons _ _ hdd
    rw [collapseAux]
    by_cases hc : c = '/'
    · subst hc
      have hf : flag = false := by
        cases flag with
        | false => rfl
        | true => exact absurd (by simp : ('/' :: rest).head? = some '/') (hflag rfl)
      rw [if_pos rfl, hf, if_neg Bool.false_ne_true]
      have hh : rest.head? ≠ some '/' := by
        intro hcontra
        cases rest with
        | nil => simp at hcontra
        | cons c2 r2 =>
          simp at hcontra
          simp [hasDoubleSlash, hcontra] at hdd
      rw [ih true hr (fun _ => hh)]
    · rw [if_neg hc]
      rw [ih false hr (fun hx => absurd hx Bool.false_ne_true)]

theorem stripTrailingSlash_id (l : Str) (h : l.getLast? ≠ some '/') :
    stripTrailingSlash l = l := by
  unfold stripTrailingSlash
  rw [if_neg h]

theorem hasDoubleSlash_slash_cons (p : Str) (hdd : hasDoubleSlash p = false)
    (hh : p.head? ≠ some '/') : hasDoubleSlash ('/' :: p) = false := by
  cases p with
  | nil => rfl
  | cons c r =>
    have hc : c ≠ '/' := fun h => hh (by simp [h])
    simp [hasDoubleSlash, hc, hdd]

theorem percentDecode_no_percent : ∀ l : Str, '%' ∉ l → percentDecode l = some l := by
  intro l
  unfold percentDecode
  induction l with
  | nil => intro _; rfl
  | cons c rest ih =>
    intro h
    have hc : c ≠ '%' := fun hx => h (hx ▸ List.mem_cons_self c rest)
    have hrest : '%' ∉ rest := fun hx => h (List.mem_cons_of_mem _ hx)
    have hpd : pdAux 0 0 0 rest = some rest := ih hrest
    unfold pdAux
    split <;> simp_all

theorem joinAbs_eq (root p : Str) (hp : p ≠ []) (hh : p.head? ≠ some '/')
    (hroot : (str "//").isPrefixOf root = false) :
    joinAbs root p = if root = str "/" then '/' :: p else root ++ '/' :: p := by
  have hss : str "//" = ['/', '/'] := rfl
  have hs1 : str "/" = ['/'] := rfl
  rw [hss] at hroot
  simp only [joinAbs, hss, hs1]
  rw [if_neg hp]
  cases root with
  | nil =>
    have hpre : (['/', '/'] : Str).isPrefixOf ([] ++ '/' :: p) = false := by
      cases p with
      | nil => exact absurd rfl hp
      | cons c r =>
        have hc : ('/' : Char) ≠ c := fun hx => hh (by simp [hx.symm])
        simp [List.isPrefixOf, hc]
    rw [hpre]
    simp
  | cons x r =>
    by_cases hx : x = '/'
    · subst hx
      cases r with
      | nil =>
        have hpre : (['/', '/'] : Str).isPrefixOf (['/'] ++ '/' :: p) = true := by
          simp [List.isPrefixOf]
        rw [hpre]
        simp
      | cons b rb =>
        have hb : ('/' : Char) ≠ b := by
          intro hbe
          rw [← hbe] at hroot
          simp [List.isPrefixOf] at hroot
        have hpre : (['/', '/'] : Str).isPrefixOf (('/' :: b :: rb) ++ '/' :: p) = false := by
          simp [List.isPrefixOf, hb]
        rw [hpre]
        simp
    · have hpre : (['/', '/'] : Str).isPrefixOf ((x :: r) ++ '/' :: p) = false := by
        simp [List.isPrefixOf, Ne.symm hx]
      rw [hpre]
      simp [hx]

/-- C1 (amended).  For every valid relative path `p` (nonempty, no `%`,
no double slash, no leading/trailing slash) under a root that does not
start with a double slash, with a base URL free of `%`, and with no
autoindex substitution applying, resolving the URL `baseurl + "/" + p`
yields relative path `p` exactly, and absolute path `root + "/" + p` —
**except** when the root is `/`, where the code collapses the resulting
double leading slash and the absolute path is `"/" + p` instead of the
claimed `root + "/" + p`. -/
theorem resolver_roundtrip (cfg : Config) (fs : Fs) (p : Str)
    (hbp : '%' ∉ cfg.baseurl) (hpp : '%' ∉ p)
    (hne : p ≠ []) (hdd : hasDoubleSlash p = false)
    (hhead : p.head? ≠ some '/') (hlast : p.getLast? ≠ some '/')
    (hroot : (str "//").isPrefixOf cfg.root = false)
    (hai : cfg.autoindex = false ∨
      fs.existsSync (joinAbs cfg.root p ++ str "/index.html") = false) :
    (mkR cfg fs (cfg.baseurl ++ '/' :: p)).1 =
      (p, if cfg.root = str "/" then '/' :: p else cfg.root ++ '/' :: p) := by
  have hurl : '%' ∉ cfg.baseurl ++ '/' :: p := by
    intro hx
    rcases List.mem_append.mp hx with h1 | h1
    · exact hbp h1
    · rcases List.mem_cons.mp h1 with h2 | h2
      · exact absurd h2 (by decide)
      · exact hpp h2
  have hdec : jsDecodeOr (cfg.baseurl ++ '/' :: p) = cfg.baseurl ++ '/' :: p := by
    unfold jsDecodeOr
    rw [percentDecode_no_percent _ hurl]
  have hrel : relOf cfg (cfg.baseurl ++ '/' :: p) = p := by
    unfold relOf
    rw [hdec, removeFirst_append]
    unfold collapseSlashes
    rw [collapseAux_noDD ('/' :: p) false (hasDoubleSlash_slash_cons p hdd hhead)
      (fun hx => absurd hx Bool.false_ne_true)]
    show stripTrailingSlash (stripLeadingSlash ('/' :: p)) = p
    rw [show stripLeadingSlash ('/' :: p) = p from rfl]
    exact stripTrailingSlash_id p hlast
  have hmk : (mkR cfg fs (cfg.baseurl ++ '/' :: p)).1 =
      (relOf cfg (cfg.baseurl ++ '/' :: p),
       joinAbs cfg.root (relOf cfg (cfg.baseurl ++ '/' :: p))) := by
    rcases hai with ha | hexF
    · simp [mkR, ha]
    · cases ha : cfg.autoindex with
      | false => simp [mkR, ha]
      | true =>
        have hexF' : fs.existsSync (joinAbs cfg.root
            (relOf cfg (cfg.baseurl ++ '/' :: p)) ++ str "/index.html") = false := by
          rw [hrel]
          exact hexF
        simp [mkR, ha, hexF']
  rw [hmk, hrel]
  rw [joinAbs_eq cfg.root p hne hhead hroot]

/-- C1 (counterexample to the claim as stated).  With root `/` (a
reachable configuration: serving the filesystem root), the valid
relative path `etc` resolves to relative path `etc` and absolute path
`/etc` — but the claimed absolute path `root + "/" + p` is the distinct
string `//etc`: the resolver collapses the double leading slash, so the
round-trip is not exact for this root. -/
theorem resolver_roundtrip_counterexample :
    (mkR (⟨str "/", 1234, str "", false, true, [], []⟩ : Config) fsAllError
      (str "" ++ '/' :: str "etc")).1 = (str "etc", str "/etc") ∧
    str "/etc" ≠ str "/" ++ str "/" ++ str "etc" :=
  ⟨by decide, by decide⟩

theorem resolver_roundtrip_witness :
    (mkR (⟨str "/srv", 1234, str "b", false, true, [], []⟩ : Config) fsAllError
      (str "b" ++ '/' :: str "a/c.txt")).1 =
      (str "a/c.txt",
        if str "/srv" = str "/" then '/' :: str "a/c.txt"
        else str "/srv" ++ '/' :: str "a/c.txt") :=
  resolver_roundtrip (⟨str "/srv", 1234, str "b", false, true, [], []⟩ : Config)
    fsAllError (str "a/c.txt") (by decide) (by decide) (by decide) (by decide)
    (by decide) (by decide) (by decide) (Or.inl rfl)
